import Mathlib

/-!
Verification of the BGP message parser core (`src/Server/src/bgp/parseBGP.h`,
class `parseBGP`).  The repository ships only the class declaration; the
method bodies are absent, so every behavioural definition below is modelled
from the design specification, following its wire-format and error-handling
sections, while the data model mirrors the fields declared in the header
file (`common_bgp_hdr`, `data_bytes_remaining`, `path_hash_id`,
`peer_asn_len`, `debug`, ...).  Bytes are modelled as `Nat`, buffers as
`List Nat`, and fallible decoding as `Except`.
-/

namespace ParseBGP

/-- Error taxonomy of the parser, from the specification's error-handling
design section. -/
inductive ParseError where
  | TruncatedHeader
  | InvalidLength
  | UnknownMessageType
  | BufferOverrun
  | MalformedAttribute
  | MalformedPrefix
  | PersistenceFailure
deriving DecidableEq, Repr

/-- A byte is modelled as a natural number (values 0..255 on real inputs). -/
abbrev Byte := Nat

/-- Big-endian (network byte order) value of a two-byte field. -/
def be16 (b1 b0 : Byte) : Nat := b1 * 256 + b0

/-- Byte of a buffer at an index, 0 when out of range. -/
def byteAt (buf : List Byte) (i : Nat) : Byte := buf.getD i 0

/-- Common BGP header per RFC4271: 16-byte marker, 16-bit length
(network byte order), 1-byte type.  Mirrors `struct common_bgp_hdr`
(parseBGP.h lines 39-63). -/
structure CommonBgpHdr where
  marker : List Byte
  len : Nat
  typ : Byte
deriving DecidableEq, Repr

/-- Per-session parser state, mirroring the private members of class
`parseBGP` (parseBGP.h lines 132-156): the remaining-bytes counter, the
cached common header, the current path hash id, the peer AS-number length
in octets, the router address used for logging, and the debug flag. -/
structure ParserState where
  data_bytes_remaining : Nat
  common_hdr : CommonBgpHdr
  path_hash_id : List Byte
  peer_asn_len : Nat
  router_addr : String
  debug : Bool
deriving DecidableEq, Repr

/-- Length field of a raw message buffer: bytes 16 and 17 in network byte
order. -/
def msgLen (buf : List Byte) : Nat := be16 (byteAt buf 16) (byteAt buf 17)

/-- Type code of a raw message buffer: byte 18. -/
def msgType (buf : List Byte) : Byte := byteAt buf 18

/-- Modelled from the spec: the body of `parseBGP::parseBgpHeader`
(declared at parseBGP.h line 171) is not in the sources.  Validation per
the Header Decoder contract: the buffer must hold at least the 19-byte
common header, else `TruncatedHeader`; the length field must lie in
[19, 4096] and must not exceed the caller-supplied buffer size, else
`InvalidLength`; the type must be one of the five known codes, else
`UnknownMessageType`. -/
def parseBgpHeaderE (buf : List Byte) (size : Nat) : Except ParseError CommonBgpHdr :=
  if size < 19 then .error .TruncatedHeader
  else if msgLen buf < 19 ∨ 4096 < msgLen buf ∨ size < msgLen buf then .error .InvalidLength
  else if msgType buf < 1 ∨ 5 < msgType buf then .error .UnknownMessageType
  else .ok ⟨buf.take 16, msgLen buf, msgType buf⟩

/-- Modelled from the spec: the stateful wrapper of the header decoder.
On success it caches the parsed common header and initializes the
remaining-bytes counter to `length - 19`; on failure the parser state is
untouched. -/
def parseBgpHeader (st : ParserState) (buf : List Byte) (size : Nat) :
    Except ParseError CommonBgpHdr × ParserState :=
  match parseBgpHeaderE buf size with
  | .error e => (.error e, st)
  | .ok hdr => (.ok hdr, { st with common_hdr := hdr, data_bytes_remaining := hdr.len - 19 })

/-- A default parser state used as a concrete witness input. -/
def st0 : ParserState :=
  { data_bytes_remaining := 0
    common_hdr := ⟨List.replicate 16 255, 0, 0⟩
    path_hash_id := List.replicate 16 0
    peer_asn_len := 2
    router_addr := ""
    debug := false }

/-- The all-ones 16-byte marker. -/
def marker16 : List Byte := List.replicate 16 255

/-- A bounded-read cursor over the raw message buffer: the buffer, the
caller-declared size, the current read position, and the remaining-bytes
counter (`data_bytes_remaining`, parseBGP.h lines 133-139) that is
decremented as the message is read and guards every read against
overrun. -/
structure Reader where
  buf : List Byte
  size : Nat
  pos : Nat
  rem : Nat
deriving DecidableEq, Repr

/-- Bytes `pos .. pos + n - 1` of a buffer. -/
def extract (buf : List Byte) (pos n : Nat) : List Byte := (buf.drop pos).take n

/-- Modelled from the spec: the single bounded-read primitive.  A read of
`n` bytes first checks the remaining-bytes counter and fails with
`BufferOverrun` when `n` exceeds it, before any byte is touched;
otherwise it yields the bytes and advances the cursor. -/
def readBytes (r : Reader) (n : Nat) : Except ParseError (List Byte × Reader) :=
  if r.rem < n then .error .BufferOverrun
  else .ok (extract r.buf r.pos n, ⟨r.buf, r.size, r.pos + n, r.rem - n⟩)

/-- Modelled from the spec: decoder for a packed list of routing prefixes
(withdrawn routes or NLRI): each entry is one length-in-bits octet
followed by `ceil(len / 8)` octets of prefix data; a length over 32 bits
(the IPv4 address-family maximum) or prefix data running past the section
is `MalformedPrefix`.  The first argument is recursion fuel; the callers
pass the section length, which bounds the number of entries. -/
def rtListF : Nat → List Byte → Except ParseError (List (Nat × List Byte))
  | _, [] => .ok []
  | 0, _ :: _ => .error .MalformedPrefix
  | fuel + 1, plen :: rest =>
    if 32 < plen then .error .MalformedPrefix
    else if rest.length < (plen + 7) / 8 then .error .MalformedPrefix
    else
      match rtListF fuel (rest.drop ((plen + 7) / 8)) with
      | .error e => .error e
      | .ok ps => .ok ((plen, rest.take ((plen + 7) / 8)) :: ps)

/-- Route list decoder over a whole extracted section. -/
def rtList (seg : List Byte) : Except ParseError (List (Nat × List Byte)) :=
  rtListF seg.length seg

/-- Extended-length bit (0x10) of a path-attribute flags octet: when set
the attribute length field is two octets, else one. -/
def attrExtLen (flags : Byte) : Bool := flags.testBit 4

/-- One decoded path attribute: flags octet, type code, raw value bytes.
Unknown attribute types are preserved opaquely as required by the spec. -/
structure PathAttr where
  flags : Byte
  typeCode : Byte
  val : List Byte
deriving DecidableEq, Repr

/-- Modelled from the spec: decoder for the path-attribute section of an
UPDATE body.  Each attribute is a flags octet, a type octet, a one- or
two-octet length per the extended-length flag bit, and that many value
bytes; a truncated attribute or a value running past the section is
`MalformedAttribute`.  The first argument is recursion fuel. -/
def attrListF : Nat → List Byte → Except ParseError (List PathAttr)
  | _, [] => .ok []
  | 0, _ :: _ => .error .MalformedAttribute
  | _ + 1, [_] => .error .MalformedAttribute
  | fuel + 1, flags :: typ :: rest =>
    if attrExtLen flags then
      match rest with
      | l1 :: l0 :: rest2 =>
        if rest2.length < be16 l1 l0 then .error .MalformedAttribute
        else
          match attrListF fuel (rest2.drop (be16 l1 l0)) with
          | .error e => .error e
          | .ok attrs => .ok (⟨flags, typ, rest2.take (be16 l1 l0)⟩ :: attrs)
      | _ => .error .MalformedAttribute
    else
      match rest with
      | l0 :: rest2 =>
        if rest2.length < l0 then .error .MalformedAttribute
        else
          match attrListF fuel (rest2.drop l0) with
          | .error e => .error e
          | .ok attrs => .ok (⟨flags, typ, rest2.take l0⟩ :: attrs)
      | [] => .error .MalformedAttribute

/-- Attribute list decoder over a whole extracted section. -/
def attrList (seg : List Byte) : Except ParseError (List PathAttr) :=
  attrListF seg.length seg

/-- Big-endian value of a whole byte list. -/
def beList (bs : List Byte) : Nat := bs.foldl (fun a b => a * 256 + b) 0

/-- Octet width of an AS number on the wire: 2 when the session's peer
AS-number length is 2, else 4 (RFC4893), per `peer_asn_len`
(parseBGP.h line 153). -/
def asnOctets (peer_asn_len : Nat) : Nat := if peer_asn_len = 2 then 2 else 4

/-- First `cnt` AS numbers of a byte list, each `w` octets big-endian. -/
def asnListOf (w : Nat) : Nat → List Byte → List Nat
  | 0, _ => []
  | cnt + 1, bs => beList (bs.take w) :: asnListOf w cnt (bs.drop w)

/-- Modelled from the spec: decoder for the value bytes of an AS_PATH
attribute.  The value is a sequence of path segments, each a type octet,
a count octet, and that many AS numbers whose octet width follows the
session's peer AS-number length.  The first argument is recursion
fuel. -/
def asPathF (peer_asn_len : Nat) : Nat → List Byte → Except ParseError (List (Byte × List Nat))
  | _, [] => .ok []
  | 0, _ :: _ => .error .MalformedAttribute
  | _ + 1, [_] => .error .MalformedAttribute
  | fuel + 1, segType :: cnt :: rest =>
    if rest.length < cnt * asnOctets peer_asn_len then .error .MalformedAttribute
    else
      match asPathF peer_asn_len fuel (rest.drop (cnt * asnOctets peer_asn_len)) with
      | .error e => .error e
      | .ok segs => .ok ((segType, asnListOf (asnOctets peer_asn_len) cnt rest) :: segs)

/-- AS_PATH decoder over the whole attribute value, honouring the
session's negotiated AS-number width. -/
def parseAsPath (peer_asn_len : Nat) (val : List Byte) :
    Except ParseError (List (Byte × List Nat)) :=
  asPathF peer_asn_len val.length val

/-- One routing prefix of an UPDATE: length in bits, prefix bytes, and
the path hash id linking an advertised prefix to its attribute set.
Mirrors the role of `bgp::prefix_tuple` used by the header file. -/
structure RouteTuple where
  plen : Nat
  addr : List Byte
  hash_id : List Byte
deriving DecidableEq, Repr

/-- Modelled from the spec: the content-addressing hash over the decoded
attribute set that yields the 16-byte `path_hash_id`.  The spec leaves
the hash function to an external utility and requires only that it be a
deterministic function of the attribute set; this model uses a simple
accumulating byte mix with that property. -/
def pathHashOf (attrs : List PathAttr) : List Byte :=
  (List.range 16).map fun i =>
    (attrs.foldl (fun a p => a * 31 + p.flags + p.typeCode + p.val.foldl (fun x y => x * 7 + y) 0) i) % 256

/-- Aggregate of one decoded UPDATE message: withdrawn routes, path
attributes, and advertised routes.  Mirrors
`bgp_msg::UpdateMsg::parsed_udpate_data` consumed by `UpdateDB`
(parseBGP.h line 180). -/
structure ParsedUpdateData where
  wdrawnRoutes : List (Nat × List Byte)
  attrs : List PathAttr
  advRoutes : List RouteTuple
deriving DecidableEq, Repr

/-- Byte counts consumed by the three sections of an UPDATE body:
withdrawn-routes section (2-byte length field plus list), path-attribute
section (2-byte length field plus list), and NLRI. -/
structure SectionBytes where
  wBytes : Nat
  aBytes : Nat
  nBytes : Nat
deriving DecidableEq, Repr

/-- Calls against the external storage interface, mirroring
`UpdateDBAttrs`, `UpdateDBAdvPrefixes` and `UpdateDBWdrawnPrefixes`
(parseBGP.h lines 189-207). -/
inductive DbCall where
  | pushAttrs (attrs : List PathAttr)
  | pushAdvRoutes (routes : List RouteTuple)
  | pushWdrawnRoutes (routes : List (Nat × List Byte))
deriving DecidableEq, Repr

/-- Modelled from the spec: decoder for the UPDATE body, reading in
strict order the 2-byte withdrawn-routes length, the withdrawn-routes
list, the 2-byte total path-attribute length, the path attributes, and
the NLRI filling the remaining bytes of the message.  Every section is
obtained through the bounded `readBytes`, so a section length exceeding
the remaining-bytes counter is `BufferOverrun`.  Returns the parsed data
(advertised routes tagged with the path hash id of the attribute set)
and the per-section byte counts. -/
def parseUpdateBody (r0 : Reader) : Except ParseError (ParsedUpdateData × SectionBytes) :=
  match readBytes r0 2 with
  | .error e => .error e
  | .ok (wlenB, r1) =>
    match readBytes r1 (be16 (byteAt wlenB 0) (byteAt wlenB 1)) with
    | .error e => .error e
    | .ok (wSeg, r2) =>
      match rtList wSeg with
      | .error e => .error e
      | .ok wdrawn =>
        match readBytes r2 2 with
        | .error e => .error e
        | .ok (alenB, r3) =>
          match readBytes r3 (be16 (byteAt alenB 0) (byteAt alenB 1)) with
          | .error e => .error e
          | .ok (aSeg, r4) =>
            match attrList aSeg with
            | .error e => .error e
            | .ok attrs =>
              match readBytes r4 r4.rem with
              | .error e => .error e
              | .ok (nSeg, _r5) =>
                match rtList nSeg with
                | .error e => .error e
                | .ok nlri =>
                  .ok (⟨wdrawn, attrs, nlri.map fun p => RouteTuple.mk p.1 p.2 (pathHashOf attrs)⟩,
                       ⟨2 + be16 (byteAt wlenB 0) (byteAt wlenB 1),
                        2 + be16 (byteAt alenB 0) (byteAt alenB 1), r4.rem⟩)

/-- Modelled from the spec: the core of `parseBGP::handleUpdate`
(declared at parseBGP.h line 94; body absent from the sources).  Parses
the common header, requires the UPDATE type code, and decodes the body
with the remaining-bytes counter initialized by the header decode.  On
success the session's path hash id is set to the hash of the decoded
attribute set and the remaining-bytes counter is fully consumed; on
failure the state is returned unchanged. -/
def handleUpdateE (st : ParserState) (buf : List Byte) (size : Nat) :
    Except ParseError (ParsedUpdateData × SectionBytes × ParserState) :=
  match parseBgpHeader st buf size with
  | (.error e, _) => .error e
  | (.ok hdr, st1) =>
    if hdr.typ ≠ 2 then .error .UnknownMessageType
    else
      match parseUpdateBody ⟨buf, size, 19, st1.data_bytes_remaining⟩ with
      | .error e => .error e
      | .ok (pd, sb) =>
        .ok (pd, sb, { st1 with path_hash_id := pathHashOf pd.attrs, data_bytes_remaining := 0 })

/-- Modelled from the spec: public `parseBGP::handleUpdate`.  Returns
true on error and false on success (parseBGP.h line 92), the mutated
parser state, and the persistence calls made: on success exactly the
three pushes (attributes, then advertised routes, then withdrawn
routes); on any decode failure no persistence call at all. -/
def handleUpdate (st : ParserState) (buf : List Byte) (size : Nat) :
    Bool × ParserState × List DbCall :=
  match handleUpdateE st buf size with
  | .error _ => (true, st, [])
  | .ok (pd, _, st') =>
    (false, st', [.pushAttrs pd.attrs, .pushAdvRoutes pd.advRoutes, .pushWdrawnRoutes pd.wdrawnRoutes])

/-- Caller-owned record populated by the NOTIFICATION handler, mirroring
`DbInterface::tbl_peer_down_event`: error code, error subcode, and the
variable-length error data. -/
structure PeerDownEvent where
  bgp_err_code : Byte
  bgp_err_subcode : Byte
  error_text : List Byte
deriving DecidableEq, Repr

/-- Modelled from the spec: the core of `parseBGP::handleDownEvent`
(declared at parseBGP.h line 109; body absent from the sources).  Parses
the common header, requires the NOTIFICATION type code, and extracts the
error code octet, the error subcode octet, and the remaining bytes as
error data. -/
def handleDownEventE (st : ParserState) (buf : List Byte) (size : Nat) :
    Except ParseError (PeerDownEvent × ParserState) :=
  match parseBgpHeader st buf size with
  | (.error e, _) => .error e
  | (.ok hdr, st1) =>
    if hdr.typ ≠ 3 then .error .UnknownMessageType
    else
      match readBytes ⟨buf, size, 19, st1.data_bytes_remaining⟩ 1 with
      | .error e => .error e
      | .ok (cB, r1) =>
        match readBytes r1 1 with
        | .error e => .error e
        | .ok (sB, r2) =>
          match readBytes r2 r2.rem with
          | .error e => .error e
          | .ok (txt, r3) =>
            .ok (⟨byteAt cB 0, byteAt sB 0, txt⟩, { st1 with data_bytes_remaining := r3.rem })

/-- Modelled from the spec: public `parseBGP::handleDownEvent`.  Returns
true on error and false on success (parseBGP.h line 107), the parser
state, the caller-supplied down event populated in place on success, and
the persistence calls made (none: the notify message does not add to the
database). -/
def handleDownEvent (st : ParserState) (buf : List Byte) (size : Nat) (ev : PeerDownEvent) :
    Bool × ParserState × PeerDownEvent × List DbCall :=
  match handleDownEventE st buf size with
  | .error _ => (true, st, ev, [])
  | .ok (ev', st') => (false, st', ev', [])

/-- One decoded OPEN message: AS number, hold time, BGP identifier, and
the capabilities announced in the optional parameters. -/
structure OpenMsgData where
  asn : Nat
  hold_time : Nat
  bgp_id : List Byte
  caps : List (Byte × List Byte)
deriving DecidableEq, Repr

/-- Caller-owned record populated by the OPEN (peer up) handler,
mirroring `DbInterface::tbl_peer_up_event`: the sent and received OPEN
messages of the up-event payload. -/
structure PeerUpEvent where
  sent_open : OpenMsgData
  recv_open : OpenMsgData
deriving DecidableEq, Repr

/-- Modelled from the spec: decoder for a type-length-value list (the
optional parameters of an OPEN message, and the capabilities inside a
type-2 parameter).  A value running past the section is a truncated
read, `BufferOverrun`.  The first argument is recursion fuel. -/
def tlvListF : Nat → List Byte → Except ParseError (List (Byte × List Byte))
  | _, [] => .ok []
  | 0, _ :: _ => .error .BufferOverrun
  | _ + 1, [_] => .error .BufferOverrun
  | fuel + 1, code :: len :: rest =>
    if rest.length < len then .error .BufferOverrun
    else
      match tlvListF fuel (rest.drop len) with
      | .error e => .error e
      | .ok tl => .ok ((code, rest.take len) :: tl)

/-- Type-length-value decoder over a whole extracted section. -/
def tlvList (seg : List Byte) : Except ParseError (List (Byte × List Byte)) :=
  tlvListF seg.length seg

/-- Capabilities carried by the type-2 optional parameters. -/
def capsOfParams (params : List (Byte × List Byte)) : Except ParseError (List (Byte × List Byte)) :=
  params.foldr
    (fun p acc => do
      let rest ← acc
      if p.1 = 2 then do
        let cs ← tlvList p.2
        pure (cs ++ rest)
      else pure rest)
    (.ok [])

/-- Modelled from the spec: decoder for one embedded OPEN message of the
up-event payload.  Parses the common header (requiring the OPEN type
code), then version, 2-byte AS number, 2-byte hold time, 4-byte BGP
identifier, optional-parameter length, and the optional parameters, all
through the bounded reader.  Returns the decoded data and the total
length of this OPEN message. -/
def parseOpenMsg (buf : List Byte) (size : Nat) : Except ParseError (OpenMsgData × Nat) :=
  match parseBgpHeaderE buf size with
  | .error e => .error e
  | .ok hdr =>
    if hdr.typ ≠ 1 then .error .UnknownMessageType
    else
      match readBytes ⟨buf, size, 19, hdr.len - 19⟩ 1 with
      | .error e => .error e
      | .ok (_vB, r1) =>
        match readBytes r1 2 with
        | .error e => .error e
        | .ok (aB, r2) =>
          match readBytes r2 2 with
          | .error e => .error e
          | .ok (hB, r3) =>
            match readBytes r3 4 with
            | .error e => .error e
            | .ok (iB, r4) =>
              match readBytes r4 1 with
              | .error e => .error e
              | .ok (oB, r5) =>
                match readBytes r5 (byteAt oB 0) with
                | .error e => .error e
                | .ok (pSeg, _r6) =>
                  match tlvList pSeg with
                  | .error e => .error e
                  | .ok params =>
                    match capsOfParams params with
                    | .error e => .error e
                    | .ok caps =>
                      .ok (⟨be16 (byteAt aB 0) (byteAt aB 1),
                            be16 (byteAt hB 0) (byteAt hB 1), iB, caps⟩, hdr.len)

/-- Capability code for 4-octet AS number support (RFC4893). -/
def cap4OctetAsn : Byte := 65

/-- Modelled from the spec: the core of `parseBGP::handleUpEvent`
(declared at parseBGP.h line 123; body absent from the sources).  Reads
the expected sent and received OPEN messages from the up-event payload,
and records the negotiated AS-number width into the session state: 4
octets when both sides announce the 4-octet AS capability, else 2. -/
def handleUpEventE (st : ParserState) (buf : List Byte) (size : Nat) :
    Except ParseError (PeerUpEvent × ParserState) :=
  match parseOpenMsg buf size with
  | .error e => .error e
  | .ok (sentO, len1) =>
    match parseOpenMsg (buf.drop len1) (size - len1) with
    | .error e => .error e
    | .ok (recvO, _len2) =>
      .ok (⟨sentO, recvO⟩,
           { st with peer_asn_len :=
               if (sentO.caps.any fun c => c.1 = cap4OctetAsn)
                  && (recvO.caps.any fun c => c.1 = cap4OctetAsn) then 4 else 2 })

/-- Modelled from the spec: public `parseBGP::handleUpEvent`.  Returns
true on error and false on success (parseBGP.h line 121), the parser
state, the caller-supplied up event populated in place on success, and
the persistence calls made (none from this handler). -/
def handleUpEvent (st : ParserState) (buf : List Byte) (size : Nat) (ev : PeerUpEvent) :
    Bool × ParserState × PeerUpEvent × List DbCall :=
  match handleUpEventE st buf size with
  | .error _ => (true, st, ev, [])
  | .ok (ev', st') => (false, st', ev', [])

/-- A state update that only changes the debug flag, mirroring
`enableDebug` and `disableDebug` (parseBGP.h lines 128-129). -/
def setDebug (d : Bool) (st : ParserState) : ParserState := { st with debug := d }

/-- A minimal well-formed UPDATE message: length 23, empty withdrawn
section, empty attribute section, empty NLRI. -/
def updOk23 : List Byte := marker16 ++ [0, 23, 2, 0, 0, 0, 0]

/-- A well-formed UPDATE message of length 33: one withdrawn prefix
10.0.0.0/8, one ORIGIN attribute, one advertised prefix 10.0.0.0/24. -/
def updOk33 : List Byte :=
  marker16 ++ [0, 33, 2] ++ [0, 2, 8, 10] ++ [0, 4, 64, 1, 1, 0] ++ [24, 10, 0, 0]

/-- A malformed UPDATE message: its single withdrawn prefix claims 33
bits, beyond the 32-bit address-family maximum. -/
def updBad23 : List Byte := marker16 ++ [0, 23, 2] ++ [0, 2, 33, 9]

/-- An UPDATE message with a section-length mismatch: its
withdrawn-routes length field claims 10 bytes while the message only has
2 bytes left after that field. -/
def updMism23 : List Byte := marker16 ++ [0, 23, 2] ++ [0, 10, 0, 0]

/-- A NOTIFICATION message: error code 6, subcode 2, two bytes of error
data. -/
def notif23 : List Byte := marker16 ++ [0, 23, 3] ++ [6, 2, 0, 0]

/-- An empty down-event record, as a caller would supply it. -/
def ev0 : PeerDownEvent := ⟨0, 0, []⟩

/-- An empty up-event record, as a caller would supply it. -/
def up0 : PeerUpEvent := ⟨⟨0, 0, [], []⟩, ⟨0, 0, [], []⟩⟩

/-- AS_PATH attribute bytes that are well formed under both AS-number
widths: one segment of two 2-octet AS numbers followed by a second
segment under width 2, or a single segment of two 4-octet AS numbers
under width 4. -/
def asPathBytes : List Byte := [2, 2, 0, 1, 0, 2, 2, 1, 0, 3]

/-- The header parsed from the minimal UPDATE message. -/
def hdr23 : CommonBgpHdr := ⟨marker16, 23, 2⟩

/-- Parser state after a successful header decode of the minimal UPDATE
message. -/
def st23h : ParserState := { st0 with common_hdr := hdr23, data_bytes_remaining := 4 }

/-- Parser state after a full successful decode of the minimal UPDATE
message. -/
def st23 : ParserState :=
  { st0 with common_hdr := hdr23, data_bytes_remaining := 0, path_hash_id := pathHashOf [] }

/-- A parser state whose remaining-bytes counter is 7, used to exhibit
that the notification handler rewrites that counter. -/
def st7 : ParserState := { st0 with data_bytes_remaining := 7 }

/-- Header bytes claiming a message length of 4097 (KEEPALIVE type),
used as a concrete witness input. -/
def hdr4097 : List Byte := marker16 ++ [16, 1, 4]

lemma getD_append_left {α : Type} :
    ∀ (l l' : List α) (j : Nat) (d : α), j < l.length → (l ++ l').getD j d = l.getD j d
  | [], _, j, _, h => by simp at h
  | a :: t, l', 0, d, _ => rfl
  | a :: t, l', j + 1, d, h => by
    simpa [List.getD_cons_succ] using getD_append_left t l' j d (by simpa using h)

lemma getD_take_lt {α : Type} :
    ∀ (l : List α) (n j : Nat) (d : α), j < n → (l.take n).getD j d = l.getD j d
  | [], _, _, _, _ => by simp
  | a :: t, n + 1, 0, d, _ => rfl
  | a :: t, n + 1, j + 1, d, h => by
    simpa [List.getD_cons_succ] using getD_take_lt t n j d (by omega)

lemma byteAt_take_append (buf tail : List Byte) (j : Nat)
    (hj : j < 19) (hb : 19 ≤ buf.length) :
    byteAt (buf.take 19 ++ tail) j = byteAt buf j := by
  unfold byteAt
  rw [getD_append_left _ _ _ _ (by simp; omega), getD_take_lt _ _ _ _ hj]

lemma getD_drop {α : Type} :
    ∀ (l : List α) (p j : Nat) (d : α), (l.drop p).getD j d = l.getD (p + j) d
  | [], p, j, d => by simp
  | _ :: _, 0, j, d => by simp
  | a :: t, p + 1, j, d => by
    rw [show p + 1 + j = (p + j) + 1 from by omega, List.getD_cons_succ]
    exact getD_drop t p j d

lemma getD_eraseIdx_lt {α : Type} :
    ∀ (l : List α) (i j : Nat) (d : α), j < i → (l.eraseIdx i).getD j d = l.getD j d
  | [], _, _, _, _ => by simp
  | _ :: _, 0, j, _, h => by omega
  | a :: t, i + 1, 0, d, _ => rfl
  | a :: t, i + 1, j + 1, d, h => by
    simpa [List.getD_cons_succ] using getD_eraseIdx_lt t i j d (by omega)

lemma extract_take (buf : List Byte) (pos n s : Nat) (h : pos + n ≤ s) :
    extract (buf.take s) pos n = extract buf pos n := by
  unfold extract
  rw [List.drop_take, List.take_take]
  congr 1
  omega

lemma byteAt_extract_zero (buf : List Byte) (p n : Nat) (hn : 0 < n) :
    byteAt (extract buf p n) 0 = byteAt buf p := by
  unfold extract byteAt
  rw [getD_take_lt _ _ _ _ hn, getD_drop, Nat.add_zero]

lemma readBytes_overrun_check (r : Reader) (n : Nat) (h : r.rem < n) :
    readBytes r n = .error .BufferOverrun := by
  unfold readBytes
  rw [if_pos h]

lemma readBytes_eq_ok (r : Reader) (n : Nat) (h : n ≤ r.rem) :
    readBytes r n = .ok (extract r.buf r.pos n, ⟨r.buf, r.size, r.pos + n, r.rem - n⟩) := by
  unfold readBytes
  rw [if_neg (by omega)]

lemma readBytes_ok_facts {r : Reader} {n : Nat} {bs : List Byte} {r' : Reader}
    (h : readBytes r n = .ok (bs, r')) :
    n ≤ r.rem ∧ bs = extract r.buf r.pos n
      ∧ r' = ⟨r.buf, r.size, r.pos + n, r.rem - n⟩ := by
  unfold readBytes at h
  split at h
  · cases h
  · next hc =>
    cases h
    exact ⟨by omega, rfl, rfl⟩

lemma parseBgpHeaderE_ok_facts {buf : List Byte} {size : Nat} {hdr : CommonBgpHdr}
    (h : parseBgpHeaderE buf size = .ok hdr) :
    19 ≤ size ∧ 19 ≤ msgLen buf ∧ msgLen buf ≤ 4096 ∧ msgLen buf ≤ size
      ∧ hdr = ⟨buf.take 16, msgLen buf, msgType buf⟩ := by
  unfold parseBgpHeaderE at h
  split_ifs at h with h1 h2 h3
  cases h
  push_neg at h1 h2
  exact ⟨by omega, by omega, by omega, by omega, rfl⟩

lemma parseBgpHeader_ok_facts {st : ParserState} {buf : List Byte} {size : Nat}
    {hdr : CommonBgpHdr} {st1 : ParserState}
    (h : parseBgpHeader st buf size = (.ok hdr, st1)) :
    parseBgpHeaderE buf size = .ok hdr
      ∧ st1 = { st with common_hdr := hdr, data_bytes_remaining := hdr.len - 19 } := by
  unfold parseBgpHeader at h
  split at h
  · next e heq =>
    simp only [Prod.mk.injEq] at h
    exact absurd h.1 (by simp)
  · next hdr' heq =>
    simp only [Prod.mk.injEq] at h
    obtain ⟨h1, h2⟩ := h
    injection h1 with h1
    subst h1
    exact ⟨heq, h2.symm⟩

lemma parseBgpHeaderE_take (buf : List Byte) (size : Nat) :
    parseBgpHeaderE (buf.take size) size = parseBgpHeaderE buf size := by
  unfold parseBgpHeaderE
  by_cases h : size < 19
  · rw [if_pos h, if_pos h]
  · have h16 : msgLen (buf.take size) = msgLen buf := by
      unfold msgLen byteAt
      rw [getD_take_lt _ _ _ _ (by omega), getD_take_lt _ _ _ _ (by omega)]
    have h18 : msgType (buf.take size) = msgType buf := by
      unfold msgType byteAt
      rw [getD_take_lt _ _ _ _ (by omega)]
    have htk : (buf.take size).take 16 = buf.take 16 := by
      rw [List.take_take]
      congr 1
      omega
    rw [if_neg h, if_neg h, h16, h18, htk]

lemma parseBgpHeader_take (st : ParserState) (buf : List Byte) (size : Nat) :
    parseBgpHeader st (buf.take size) size = parseBgpHeader st buf size := by
  unfold parseBgpHeader
  rw [parseBgpHeaderE_take]

lemma parseUpdateBody_take (buf : List Byte) (size pos rem : Nat) (h : pos + rem ≤ size) :
    parseUpdateBody ⟨buf.take size, size, pos, rem⟩ = parseUpdateBody ⟨buf, size, pos, rem⟩ := by
  unfold parseUpdateBody
  by_cases h1 : rem < 2
  · rw [readBytes_overrun_check _ _ h1, readBytes_overrun_check _ _ h1]
  · have e1 : (2 : Nat) ≤ rem := by omega
    rw [readBytes_eq_ok ⟨buf.take size, size, pos, rem⟩ 2 e1,
        readBytes_eq_ok ⟨buf, size, pos, rem⟩ 2 e1]
    dsimp only
    rw [extract_take buf pos 2 size (by omega)]
    set wlen := be16 (byteAt (extract buf pos 2) 0) (byteAt (extract buf pos 2) 1) with hwlen
    by_cases h2 : rem - 2 < wlen
    · rw [readBytes_overrun_check _ _ h2, readBytes_overrun_check _ _ h2]
    · have e2 : wlen ≤ rem - 2 := by omega
      rw [readBytes_eq_ok ⟨buf.take size, size, pos + 2, rem - 2⟩ wlen e2,
          readBytes_eq_ok ⟨buf, size, pos + 2, rem - 2⟩ wlen e2]
      dsimp only
      rw [extract_take buf (pos + 2) wlen size (by omega)]
      cases hw : rtList (extract buf (pos + 2) wlen) with
      | error e => rfl
      | ok wdrawn =>
        by_cases h3 : rem - 2 - wlen < 2
        · rw [readBytes_overrun_check _ _ h3, readBytes_overrun_check _ _ h3]
        · have e3 : (2 : Nat) ≤ rem - 2 - wlen := by omega
          rw [readBytes_eq_ok ⟨buf.take size, size, pos + 2 + wlen, rem - 2 - wlen⟩ 2 e3,
              readBytes_eq_ok ⟨buf, size, pos + 2 + wlen, rem - 2 - wlen⟩ 2 e3]
          dsimp only
          rw [extract_take buf (pos + 2 + wlen) 2 size (by omega)]
          set alen := be16 (byteAt (extract buf (pos + 2 + wlen) 2) 0)
            (byteAt (extract buf (pos + 2 + wlen) 2) 1) with halen
          by_cases h4 : rem - 2 - wlen - 2 < alen
          · rw [readBytes_overrun_check _ _ h4, readBytes_overrun_check _ _ h4]
          · have e4 : alen ≤ rem - 2 - wlen - 2 := by omega
            rw [readBytes_eq_ok ⟨buf.take size, size, pos + 2 + wlen + 2, rem - 2 - wlen - 2⟩ alen e4,
                readBytes_eq_ok ⟨buf, size, pos + 2 + wlen + 2, rem - 2 - wlen - 2⟩ alen e4]
            dsimp only
            rw [extract_take buf (pos + 2 + wlen + 2) alen size (by omega)]
            cases ha : attrList (extract buf (pos + 2 + wlen + 2) alen) with
            | error e => rfl
            | ok attrs =>
              have e5 : rem - 2 - wlen - 2 - alen ≤ rem - 2 - wlen - 2 - alen := le_refl _
              rw [readBytes_eq_ok ⟨buf.take size, size, pos + 2 + wlen + 2 + alen,
                    rem - 2 - wlen - 2 - alen⟩ (rem - 2 - wlen - 2 - alen) e5,
                  readBytes_eq_ok ⟨buf, size, pos + 2 + wlen + 2 + alen,
                    rem - 2 - wlen - 2 - alen⟩ (rem - 2 - wlen - 2 - alen) e5]
              dsimp only
              rw [extract_take buf (pos + 2 + wlen + 2 + alen) (rem - 2 - wlen - 2 - alen) size
                    (by omega)]

lemma handleUpdateE_take (st : ParserState) (buf : List Byte) (size : Nat) :
    handleUpdateE st (buf.take size) size = handleUpdateE st buf size := by
  unfold handleUpdateE
  rw [parseBgpHeader_take]
  split
  · rfl
  · next hdr st1 heq =>
    obtain ⟨hE, hst⟩ := parseBgpHeader_ok_facts heq
    obtain ⟨hsz, hl19, _, hls, hhdr⟩ := parseBgpHeaderE_ok_facts hE
    have h' : 19 + st1.data_bytes_remaining ≤ size := by
      rw [hst, hhdr]
      dsimp only
      omega
    by_cases ht : hdr.typ ≠ 2
    · rw [if_pos ht, if_pos ht]
    · rw [if_neg ht, if_neg ht, parseUpdateBody_take buf size 19 st1.data_bytes_remaining h']

lemma handleDownEventE_ok_facts {st : ParserState} {buf : List Byte} {size : Nat}
    {ev' : PeerDownEvent} {st' : ParserState}
    (h : handleDownEventE st buf size = .ok (ev', st')) :
    ev' = ⟨byteAt buf 19, byteAt buf 20, extract buf 21 (msgLen buf - 21)⟩
      ∧ st'.peer_asn_len = st.peer_asn_len ∧ st'.path_hash_id = st.path_hash_id
      ∧ st'.router_addr = st.router_addr ∧ st'.debug = st.debug
      ∧ st'.data_bytes_remaining = 0 := by
  unfold handleDownEventE at h
  split at h
  · cases h
  · next hdr st1 heq =>
    obtain ⟨hE, hst⟩ := parseBgpHeader_ok_facts heq
    obtain ⟨hsz, hl19, hl4096, hls, hhdr⟩ := parseBgpHeaderE_ok_facts hE
    split at h
    · cases h
    · split at h
      · cases h
      · next cB r1 hr1 =>
        split at h
        · cases h
        · next sB r2 hr2 =>
          split at h
          · cases h
          · next txt r3 hr3 =>
            obtain ⟨hn1, hcB, hr1e⟩ := readBytes_ok_facts hr1
            obtain ⟨hn2, hsB, hr2e⟩ := readBytes_ok_facts hr2
            obtain ⟨hn3, htxt, hr3e⟩ := readBytes_ok_facts hr3
            subst hr1e
            subst hr2e
            subst hr3e
            subst hcB
            subst hsB
            subst htxt
            cases h
            subst hst
            subst hhdr
            dsimp only at hn1 ⊢
            refine ⟨?_, rfl, rfl, rfl, rfl, by omega⟩
            have c1 := byteAt_extract_zero buf 19 1 (by omega)
            have c2 := byteAt_extract_zero buf (19 + 1) 1 (by omega)
            rw [c1, c2]
            have harg : 19 + 1 + 1 = 21 := by omega
            have hlen : msgLen buf - 19 - 1 - 1 = msgLen buf - 21 := by omega
            rw [harg, hlen, show (19 : Nat) + 1 = 20 from by omega]

/-- Equality of the header decode under a changed debug flag: the debug
flag is carried through, everything else coincides. -/
lemma parseBgpHeader_debug (d : Bool) (st : ParserState) (buf : List Byte) (size : Nat) :
    parseBgpHeader (setDebug d st) buf size
      = ((parseBgpHeader st buf size).1, setDebug d (parseBgpHeader st buf size).2) := by
  unfold parseBgpHeader
  cases parseBgpHeaderE buf size with
  | error e => rfl
  | ok hdr => rfl

lemma handleUpdateE_debug (d : Bool) (st : ParserState) (buf : List Byte) (size : Nat) :
    handleUpdateE (setDebug d st) buf size
      = (handleUpdateE st buf size).map fun x => (x.1, x.2.1, setDebug d x.2.2) := by
  unfold handleUpdateE parseBgpHeader
  cases parseBgpHeaderE buf size with
  | error e => rfl
  | ok hdr =>
    dsimp only
    by_cases ht : hdr.typ ≠ 2
    · rw [if_pos ht, if_pos ht]
      rfl
    · rw [if_neg ht, if_neg ht]
      cases parseUpdateBody ⟨buf, size, 19, hdr.len - 19⟩ with
      | error e => rfl
      | ok pdsb => rfl

lemma handleDownEventE_debug (d : Bool) (st : ParserState) (buf : List Byte) (size : Nat) :
    handleDownEventE (setDebug d st) buf size
      = (handleDownEventE st buf size).map fun x => (x.1, setDebug d x.2) := by
  unfold handleDownEventE parseBgpHeader
  cases parseBgpHeaderE buf size with
  | error e => rfl
  | ok hdr =>
    dsimp only
    by_cases ht : hdr.typ ≠ 3
    · rw [if_pos ht, if_pos ht]
      rfl
    · rw [if_neg ht, if_neg ht]
      cases readBytes ⟨buf, size, 19, hdr.len - 19⟩ 1 with
      | error e => rfl
      | ok p1 =>
        dsimp only
        cases readBytes p1.2 1 with
        | error e => rfl
        | ok p2 =>
          dsimp only
          cases readBytes p2.2 p2.2.rem with
          | error e => rfl
          | ok p3 => rfl

lemma handleUpEventE_debug (d : Bool) (st : ParserState) (buf : List Byte) (size : Nat) :
    handleUpEventE (setDebug d st) buf size
      = (handleUpEventE st buf size).map fun x => (x.1, setDebug d x.2) := by
  unfold handleUpEventE
  cases parseOpenMsg buf size with
  | error e => rfl
  | ok p1 =>
    dsimp only
    cases parseOpenMsg (buf.drop p1.2) (size - p1.2) with
    | error e => rfl
    | ok p2 => rfl

/-- Claim C2: for every input buffer shorter than 19 bytes, the header
decode fails with `TruncatedHeader` and mutates no parser state (the
cached common header, the remaining-bytes counter, and the session fields
are all returned unchanged). -/
theorem parseBgpHeader_truncated (st : ParserState) (buf : List Byte) (size : Nat)
    (h : size < 19) : parseBgpHeader st buf size = (.error .TruncatedHeader, st) := by
  unfold parseBgpHeader parseBgpHeaderE
  rw [if_pos h]

/-- Witness for claim C2 at a concrete 3-byte buffer. -/
theorem parseBgpHeader_truncated_witness :
    (3 : Nat) < 19 ∧ parseBgpHeader st0 [255, 255, 255] 3 = (.error .TruncatedHeader, st0) :=
  ⟨by decide, parseBgpHeader_truncated st0 [255, 255, 255] 3 (by decide)⟩

/-- Claim C3: whenever the 16-bit length field of a present header lies
outside [19, 4096] or exceeds the caller-supplied buffer size, the header
decode fails with `InvalidLength` and leaves the state unchanged; moreover
the result is the same for every choice of the bytes following the 19-byte
header, so no byte beyond the header is read. -/
theorem parseBgpHeader_invalid_length (st : ParserState) (buf : List Byte) (size : Nat)
    (hsz : 19 ≤ size) (hbuf : 19 ≤ buf.length)
    (hlen : msgLen buf < 19 ∨ 4096 < msgLen buf ∨ size < msgLen buf) :
    parseBgpHeader st buf size = (.error .InvalidLength, st)
    ∧ ∀ tail, parseBgpHeader st (buf.take 19 ++ tail) size = (.error .InvalidLength, st) := by
  constructor
  · unfold parseBgpHeader parseBgpHeaderE
    rw [if_neg (by omega), if_pos hlen]
  · intro tail
    have hml : msgLen (buf.take 19 ++ tail) = msgLen buf := by
      unfold msgLen
      rw [byteAt_take_append buf tail 16 (by omega) hbuf,
          byteAt_take_append buf tail 17 (by omega) hbuf]
    unfold parseBgpHeader parseBgpHeaderE
    rw [if_neg (by omega), hml, if_pos hlen]

/-- Witness for claim C3: a header claiming length 4097 is rejected with
`InvalidLength`, and the rejection is independent of the bytes that follow
the header. -/
theorem parseBgpHeader_invalid_length_witness :
    parseBgpHeader st0 hdr4097 19 = (.error .InvalidLength, st0)
    ∧ parseBgpHeader st0 (hdr4097.take 19 ++ [9, 9, 9]) 19 = (.error .InvalidLength, st0) :=
  ⟨(parseBgpHeader_invalid_length st0 hdr4097 19 (by decide) (by decide)
      (by right; left; decide)).1,
   (parseBgpHeader_invalid_length st0 hdr4097 19 (by decide) (by decide)
      (by right; left; decide)).2 [9, 9, 9]⟩

lemma readBytes_error {r : Reader} {n : Nat} {e : ParseError}
    (h : readBytes r n = .error e) : e = .BufferOverrun := by
  unfold readBytes at h
  split at h
  · injection h with h
    exact h.symm
  · cases h

lemma rtListF_error :
    ∀ (fuel : Nat) (seg : List Byte) (e : ParseError),
      rtListF fuel seg = .error e → e = .MalformedPrefix
  | _, [], e, h => by simp [rtListF] at h
  | 0, b :: rest, e, h => by
    simp only [rtListF] at h
    injection h with h
    exact h.symm
  | fuel + 1, plen :: rest, e, h => by
    simp only [rtListF] at h
    split_ifs at h with h1 h2
    · injection h with h
      exact h.symm
    · injection h with h
      exact h.symm
    · split at h
      · next e' he' =>
        injection h with h
        subst h
        exact rtListF_error fuel _ e' he'
      · cases h

lemma attrListF_error :
    ∀ (fuel : Nat) (seg : List Byte) (e : ParseError),
      attrListF fuel seg = .error e → e = .MalformedAttribute
  | _, [], e, h => by simp [attrListF] at h
  | 0, b :: rest, e, h => by
    simp only [attrListF] at h
    injection h with h
    exact h.symm
  | _ + 1, [b], e, h => by
    simp only [attrListF] at h
    injection h with h
    exact h.symm
  | fuel + 1, flags :: typ :: rest, e, h => by
    simp only [attrListF] at h
    split_ifs at h with hx
    · split at h
      · next l1 l0 rest2 =>
        split_ifs at h with hl
        · injection h with h
          exact h.symm
        · split at h
          · next e' he' =>
            injection h with h
            subst h
            exact attrListF_error fuel _ e' he'
          · cases h
      · next hne =>
        injection h with h
        exact h.symm
    · split at h
      · next l0 rest2 =>
        split_ifs at h with hl
        · injection h with h
          exact h.symm
        · split at h
          · next e' he' =>
            injection h with h
            subst h
            exact attrListF_error fuel _ e' he'
          · cases h
      · injection h with h
        exact h.symm

lemma parseUpdateBody_error_class {r : Reader} {e : ParseError}
    (h : parseUpdateBody r = .error e) :
    e = .BufferOverrun ∨ e = .MalformedAttribute ∨ e = .MalformedPrefix := by
  unfold parseUpdateBody at h
  split at h
  · next e1 he1 =>
    injection h with h
    subst h
    exact Or.inl (readBytes_error he1)
  · next wlenB r1 h1 =>
    split at h
    · next e1 he1 =>
      injection h with h
      subst h
      exact Or.inl (readBytes_error he1)
    · next wSeg r2 h2 =>
      split at h
      · next e1 he1 =>
        injection h with h
        subst h
        exact Or.inr (Or.inr (rtListF_error _ _ _ he1))
      · next wdrawn h3 =>
        split at h
        · next e1 he1 =>
          injection h with h
          subst h
          exact Or.inl (readBytes_error he1)
        · next alenB r3 h4 =>
          split at h
          · next e1 he1 =>
            injection h with h
            subst h
            exact Or.inl (readBytes_error he1)
          · next aSeg r4 h5 =>
            split at h
            · next e1 he1 =>
              injection h with h
              subst h
              exact Or.inr (Or.inl (attrListF_error _ _ _ he1))
            · next attrs h6 =>
              split at h
              · next e1 he1 =>
                injection h with h
                subst h
                exact Or.inl (readBytes_error he1)
              · next nSeg r5 h7 =>
                split at h
                · next e1 he1 =>
                  injection h with h
                  subst h
                  exact Or.inr (Or.inr (rtListF_error _ _ _ he1))
                · next nlri h8 =>
                  cases h

lemma parseUpdateBody_ok_sections {r : Reader} {pd : ParsedUpdateData} {sb : SectionBytes}
    (h : parseUpdateBody r = .ok (pd, sb)) :
    sb.wBytes + sb.aBytes + sb.nBytes = r.rem := by
  unfold parseUpdateBody at h
  split at h
  · cases h
  · next wlenB r1 h1 =>
    split at h
    · cases h
    · next wSeg r2 h2 =>
      split at h
      · cases h
      · next wdrawn h3 =>
        split at h
        · cases h
        · next alenB r3 h4 =>
          split at h
          · cases h
          · next aSeg r4 h5 =>
            split at h
            · cases h
            · next attrs h6 =>
              split at h
              · cases h
              · next nSeg r5 h7 =>
                split at h
                · cases h
                · next nlri h8 =>
                  obtain ⟨g1, -, e1⟩ := readBytes_ok_facts h1
                  obtain ⟨g2, -, e2⟩ := readBytes_ok_facts h2
                  obtain ⟨g4, -, e4⟩ := readBytes_ok_facts h4
                  obtain ⟨g5, -, e5⟩ := readBytes_ok_facts h5
                  subst e1
                  dsimp only at g2 e2
                  subst e2
                  dsimp only at g4 e4
                  subst e4
                  dsimp only at g5 e5
                  subst e5
                  cases h
                  dsimp only
                  omega

/-- Claim C1 (counterexample): truncating the well-formed UPDATE message
`updOk33` by one byte inside its variable-length region yields
`InvalidLength`, which is neither `BufferOverrun` nor a `Malformed*`
failure, refuting the claimed error classification for truncations. -/
theorem update_truncation_counterexample :
    (handleUpdate st0 updOk33 updOk33.length).1 = false
    ∧ msgLen updOk33 = updOk33.length
    ∧ handleUpdateE st0 (updOk33.eraseIdx 25) (updOk33.length - 1) = .error .InvalidLength
    ∧ (ParseError.InvalidLength ≠ ParseError.BufferOverrun
        ∧ ParseError.InvalidLength ≠ ParseError.MalformedAttribute
        ∧ ParseError.InvalidLength ≠ ParseError.MalformedPrefix) := by
  refine ⟨rfl, rfl, rfl, by decide, by decide, by decide⟩

/-- Claim C1 (amended): every read through the bounded reader checks the
remaining-bytes counter before touching any byte and fails with
`BufferOverrun` when it would overrun; the UPDATE decode never reads any
byte beyond the caller-declared size (its result is unchanged when the
buffer is cut at that size); and truncating a well-formed exactly-framed
UPDATE message by one byte anywhere in its variable-length region never
yields a successful decode and never an out-of-bounds read — it fails,
with `InvalidLength`, since the header length field then exceeds the
buffer. -/
theorem update_overrun_guard :
    (∀ (r : Reader) (n : Nat), r.rem < n → readBytes r n = .error .BufferOverrun)
    ∧ (∀ (st : ParserState) (buf : List Byte) (size : Nat),
        handleUpdateE st (buf.take size) size = handleUpdateE st buf size)
    ∧ (∀ (st : ParserState) (buf : List Byte) (i : Nat),
        (handleUpdate st buf buf.length).1 = false → msgLen buf = buf.length →
        19 ≤ i → i < buf.length →
        handleUpdateE st (buf.eraseIdx i) (buf.length - 1) = .error .InvalidLength
        ∧ (handleUpdate st (buf.eraseIdx i) (buf.length - 1)).1 = true) := by
  refine ⟨readBytes_overrun_check, handleUpdateE_take, ?_⟩
  intro st buf i hwf hml hi1 hi2
  cases hu : handleUpdateE st buf buf.length with
  | error e =>
    exfalso
    unfold handleUpdate at hwf
    rw [hu] at hwf
    simp at hwf
  | ok v =>
    have hex : ∃ hdr st1, parseBgpHeader st buf buf.length = (.ok hdr, st1) := by
      unfold handleUpdateE at hu
      split at hu
      · cases hu
      · next hdr st1 heq => exact ⟨hdr, st1, heq⟩
    obtain ⟨hdr, st1, hh⟩ := hex
    obtain ⟨hE, -⟩ := parseBgpHeader_ok_facts hh
    obtain ⟨hsz, hl19, hl4096, hls, -⟩ := parseBgpHeaderE_ok_facts hE
    have hml' : msgLen (buf.eraseIdx i) = msgLen buf := by
      unfold msgLen byteAt
      rw [getD_eraseIdx_lt _ _ _ _ (by omega), getD_eraseIdx_lt _ _ _ _ (by omega)]
    have hhdrE : parseBgpHeaderE (buf.eraseIdx i) (buf.length - 1) = .error .InvalidLength := by
      unfold parseBgpHeaderE
      rw [hml', if_neg (by omega), if_pos (by omega)]
    constructor
    · unfold handleUpdateE parseBgpHeader
      rw [hhdrE]
    · unfold handleUpdate handleUpdateE parseBgpHeader
      rw [hhdrE]

/-- Witness for claim C1 at the concrete message `updOk33` truncated at
offset 20. -/
theorem update_overrun_guard_witness :
    handleUpdateE st0 (updOk33.eraseIdx 20) (updOk33.length - 1) = .error .InvalidLength
    ∧ (handleUpdate st0 (updOk33.eraseIdx 20) (updOk33.length - 1)).1 = true :=
  update_overrun_guard.2.2 st0 updOk33 20 (by decide) (by decide) (by decide) (by decide)

/-- Claim C4 (counterexample): in the UPDATE message `updMism23` the
withdrawn-routes length field claims 10 bytes while only 2 remain, a
length mismatch; the decode reports it as `BufferOverrun`, which is
neither `MalformedAttribute` nor `MalformedPrefix`, refuting the claimed
mismatch classification. -/
theorem update_mismatch_counterexample :
    handleUpdateE st0 updMism23 23 = .error .BufferOverrun
    ∧ ParseError.BufferOverrun ≠ ParseError.MalformedAttribute
    ∧ ParseError.BufferOverrun ≠ ParseError.MalformedPrefix := by
  refine ⟨rfl, by decide, by decide⟩

/-- Claim C4 (amended): a successful header decode initializes the
remaining-bytes counter to `length - 19`; for every UPDATE message that
decodes successfully the bytes consumed by the withdrawn-routes,
path-attribute and NLRI sections sum exactly to `length - 19`; and every
mismatch in a validly-headed UPDATE body is reported as an error —
`MalformedAttribute` or `MalformedPrefix` for a mismatch inside a
section, `BufferOverrun` for a section length field exceeding the
message remainder — never silently truncated. -/
theorem update_length_accounting :
    (∀ (st : ParserState) (buf : List Byte) (size : Nat) (hdr : CommonBgpHdr) (st' : ParserState),
        parseBgpHeader st buf size = (.ok hdr, st') → st'.data_bytes_remaining = hdr.len - 19)
    ∧ (∀ (st : ParserState) (buf : List Byte) (size : Nat) (pd : ParsedUpdateData)
        (sb : SectionBytes) (st' : ParserState),
        handleUpdateE st buf size = .ok (pd, sb, st') →
        sb.wBytes + sb.aBytes + sb.nBytes = msgLen buf - 19)
    ∧ (∀ (st : ParserState) (buf : List Byte) (size : Nat) (e : ParseError)
        (hdr : CommonBgpHdr) (st1 : ParserState),
        parseBgpHeader st buf size = (.ok hdr, st1) → hdr.typ = 2 →
        handleUpdateE st buf size = .error e →
        e = .BufferOverrun ∨ e = .MalformedAttribute ∨ e = .MalformedPrefix) := by
  refine ⟨?_, ?_, ?_⟩
  · intro st buf size hdr st' h
    obtain ⟨hE, hst⟩ := parseBgpHeader_ok_facts h
    rw [hst]
  · intro st buf size pd sb st' h
    unfold handleUpdateE at h
    split at h
    · cases h
    · next hdr st1 heq =>
      obtain ⟨hE, hst⟩ := parseBgpHeader_ok_facts heq
      obtain ⟨hsz, hl19, hl4096, hls, hhdr⟩ := parseBgpHeaderE_ok_facts hE
      split at h
      · cases h
      · split at h
        · cases h
        · next pd1 sb1 hpb =>
          have hsec := parseUpdateBody_ok_sections hpb
          cases h
          subst hst
          subst hhdr
          dsimp only at hsec
          exact hsec
  · intro st buf size e hdr st1 hh ht h
    unfold handleUpdateE at h
    rw [hh] at h
    dsimp only at h
    rw [if_neg (by simp [ht])] at h
    split at h
    · next e1 he1 =>
      injection h with h
      subst h
      exact parseUpdateBody_error_class he1
    · cases h

/-- Witness for claim C4 at the minimal UPDATE message and at the
concrete length-mismatch message. -/
theorem update_length_accounting_witness :
    st23h.data_bytes_remaining = hdr23.len - 19
    ∧ SectionBytes.wBytes ⟨2, 2, 0⟩ + SectionBytes.aBytes ⟨2, 2, 0⟩ + SectionBytes.nBytes ⟨2, 2, 0⟩
        = msgLen updOk23 - 19
    ∧ (ParseError.BufferOverrun = .BufferOverrun
        ∨ ParseError.BufferOverrun = .MalformedAttribute
        ∨ ParseError.BufferOverrun = .MalformedPrefix) :=
  ⟨update_length_accounting.1 st0 updOk23 23 hdr23 st23h (by rfl),
   update_length_accounting.2.1 st0 updOk23 23 ⟨[], [], []⟩ ⟨2, 2, 0⟩ st23 (by rfl),
   update_length_accounting.2.2 st0 updMism23 23 .BufferOverrun hdr23 st23h
     (by rfl) (by rfl) (by rfl)⟩

/-- Claim C5: any decode failure inside an UPDATE message aborts the
whole decode, is reported to the caller as the error return `true`, and
results in no persistence call at all — no partial attribute, advertised
or withdrawn push. -/
theorem update_abort_no_persist :
    ∀ (st : ParserState) (buf : List Byte) (size : Nat) (e : ParseError),
      handleUpdateE st buf size = .error e → handleUpdate st buf size = (true, st, []) := by
  intro st buf size e h
  unfold handleUpdate
  rw [h]

/-- Witness for claim C5 at the UPDATE message with an invalid withdrawn
prefix length. -/
theorem update_abort_no_persist_witness :
    handleUpdate st0 updBad23 23 = (true, st0, []) :=
  update_abort_no_persist st0 updBad23 23 .MalformedPrefix (by rfl)

/-- Claim C6: decoding the same AS_PATH attribute bytes under an
AS-number width of 2 versus 4 octets yields different, and each
independently correct, AS sequences: width 2 reads two segments with AS
numbers 1, 2 and 3, width 4 reads one segment with AS numbers 65538 and
33619971. -/
theorem aspath_width_honored :
    parseAsPath 2 asPathBytes = .ok [(2, [1, 2]), (2, [3])]
    ∧ parseAsPath 4 asPathBytes = .ok [(2, [65538, 33619971])]
    ∧ ([((2 : Byte), [1, 2]), (2, [3])] : List (Byte × List Nat)) ≠ [(2, [65538, 33619971])] :=
  ⟨rfl, rfl, by decide⟩

/-- Claim C7 (counterexample): a successful NOTIFICATION decode rewrites
the remaining-bytes counter of the parser state, so the notification
handler does not leave all parser state other than the down event
unchanged. -/
theorem down_event_state_counterexample :
    (handleDownEvent st7 notif23 23 ev0).1 = false
    ∧ (handleDownEvent st7 notif23 23 ev0).2.1.data_bytes_remaining ≠ st7.data_bytes_remaining :=
  ⟨rfl, by decide⟩

/-- Claim C7 (amended): for every NOTIFICATION parse, the handler makes
no persistence call and leaves the session fields (peer AS-number
length, path hash id, router address, debug flag) unchanged; on success
it populates the caller-supplied down event with the error code octet,
the error subcode octet and the variable-length error data, while the
remaining-bytes counter (and cached common header) are updated by the
header decode and body reads. -/
theorem down_event_effects :
    ∀ (st : ParserState) (buf : List Byte) (size : Nat) (ev : PeerDownEvent),
      (handleDownEvent st buf size ev).2.2.2 = []
      ∧ (handleDownEvent st buf size ev).2.1.peer_asn_len = st.peer_asn_len
      ∧ (handleDownEvent st buf size ev).2.1.path_hash_id = st.path_hash_id
      ∧ (handleDownEvent st buf size ev).2.1.router_addr = st.router_addr
      ∧ (handleDownEvent st buf size ev).2.1.debug = st.debug
      ∧ ((handleDownEvent st buf size ev).1 = false →
          (handleDownEvent st buf size ev).2.2.1
            = ⟨byteAt buf 19, byteAt buf 20, extract buf 21 (msgLen buf - 21)⟩
          ∧ (handleDownEvent st buf size ev).2.1.data_bytes_remaining = 0) := by
  intro st buf size ev
  unfold handleDownEvent
  cases hd : handleDownEventE st buf size with
  | error e =>
    refine ⟨rfl, rfl, rfl, rfl, rfl, ?_⟩
    intro hfalse
    simp at hfalse
  | ok p =>
    obtain ⟨e1, e2, e3, e4, e5, e6⟩ :=
      handleDownEventE_ok_facts (show handleDownEventE st buf size = .ok (p.1, p.2) from hd)
    exact ⟨rfl, e2, e3, e4, e5, fun _ => ⟨e1, e6⟩⟩

/-- Witness for claim C7 at the concrete NOTIFICATION message. -/
theorem down_event_effects_witness :
    (handleDownEvent st0 notif23 23 ev0).2.2.1
      = ⟨byteAt notif23 19, byteAt notif23 20, extract notif23 21 (msgLen notif23 - 21)⟩
    ∧ (handleDownEvent st0 notif23 23 ev0).2.2.2 = [] :=
  ⟨((down_event_effects st0 notif23 23 ev0).2.2.2.2.2 (by rfl)).1,
   (down_event_effects st0 notif23 23 ev0).1⟩

/-- Claim C9: the debug flag has no behavioural effect: running any of
the three handlers with a changed debug flag yields the same error
return, the same output records, the same persistence calls, and the
same resulting parser state apart from the carried debug flag itself. -/
theorem debug_flag_no_effect :
    ∀ (d : Bool) (st : ParserState) (buf : List Byte) (size : Nat)
      (ev : PeerDownEvent) (uev : PeerUpEvent),
      handleUpdate (setDebug d st) buf size
        = ((handleUpdate st buf size).1, setDebug d (handleUpdate st buf size).2.1,
           (handleUpdate st buf size).2.2)
      ∧ handleDownEvent (setDebug d st) buf size ev
        = ((handleDownEvent st buf size ev).1, setDebug d (handleDownEvent st buf size ev).2.1,
           (handleDownEvent st buf size ev).2.2.1, (handleDownEvent st buf size ev).2.2.2)
      ∧ handleUpEvent (setDebug d st) buf size uev
        = ((handleUpEvent st buf size uev).1, setDebug d (handleUpEvent st buf size uev).2.1,
           (handleUpEvent st buf size uev).2.2.1, (handleUpEvent st buf size uev).2.2.2) := by
  intro d st buf size ev uev
  refine ⟨?_, ?_, ?_⟩
  · unfold handleUpdate
    rw [handleUpdateE_debug]
    cases handleUpdateE st buf size with
    | error e => rfl
    | ok v => rfl
  · unfold handleDownEvent
    rw [handleDownEventE_debug]
    cases handleDownEventE st buf size with
    | error e => rfl
    | ok v => rfl
  · unfold handleUpEvent
    rw [handleUpEventE_debug]
    cases handleUpEventE st buf size with
    | error e => rfl
    | ok v => rfl

/-- Witness for claim C9 at a concrete UPDATE message and state. -/
theorem debug_flag_no_effect_witness :
    handleUpdate (setDebug true st0) updOk33 33
      = ((handleUpdate st0 updOk33 33).1, setDebug true (handleUpdate st0 updOk33 33).2.1,
         (handleUpdate st0 updOk33 33).2.2) :=
  (debug_flag_no_effect true st0 updOk33 33 ev0 up0).1

/-- Claim C10: every public handler returns `true` exactly when an error
occurred and `false` on success — the inverse of the conventional
true-on-success polarity. -/
theorem handler_bool_polarity :
    ∀ (st : ParserState) (buf : List Byte) (size : Nat)
      (ev : PeerDownEvent) (uev : PeerUpEvent),
      ((handleUpdate st buf size).1 = true ↔ ∃ e, handleUpdateE st buf size = .error e)
      ∧ ((handleDownEvent st buf size ev).1 = true ↔ ∃ e, handleDownEventE st buf size = .error e)
      ∧ ((handleUpEvent st buf size uev).1 = true ↔ ∃ e, handleUpEventE st buf size = .error e) := by
  intro st buf size ev uev
  refine ⟨?_, ?_, ?_⟩
  · unfold handleUpdate
    cases h : handleUpdateE st buf size with
    | error e => exact ⟨fun _ => ⟨e, rfl⟩, fun _ => rfl⟩
    | ok v =>
      constructor
      · intro hfalse
        simp at hfalse
      · rintro ⟨e, he⟩
        cases he
  · unfold handleDownEvent
    cases h : handleDownEventE st buf size with
    | error e => exact ⟨fun _ => ⟨e, rfl⟩, fun _ => rfl⟩
    | ok v =>
      constructor
      · intro hfalse
        simp at hfalse
      · rintro ⟨e, he⟩
        cases he
  · unfold handleUpEvent
    cases h : handleUpEventE st buf size with
    | error e => exact ⟨fun _ => ⟨e, rfl⟩, fun _ => rfl⟩
    | ok v =>
      constructor
      · intro hfalse
        simp at hfalse
      · rintro ⟨e, he⟩
        cases he

/-- Witness for claim C10: an erroneous UPDATE decode returns `true`. -/
theorem handler_bool_polarity_witness :
    (handleUpdate st0 updBad23 23).1 = true :=
  (handler_bool_polarity st0 updBad23 23 ev0 up0).1.mpr ⟨.MalformedPrefix, by rfl⟩

end ParseBGP
